import Mathlib

/-!
Verification of the social-media-microservices repository.

Shallow embedding of the cross-service consistency and mediation layer:
the post-service controllers (create/read/delete with Redis read-through
caching and RabbitMQ event publication), the media-service cleanup worker,
the identity-service login/refresh controllers, and the API gateway's
admission, authentication and proxy-error paths.

External collaborators (Redis, MongoDB, RabbitMQ, bcrypt, jsonwebtoken,
Cloudinary) are modelled by their contracts: the cache is an association
list keyed by string, the document stores are lists, broker publication
either acknowledges or throws (a boolean outcome parameter), password
comparison and JWT verification are function parameters.
-/

namespace SocialMedia

/-! ### Cache store (Redis contract, spec §6)

`GET key`, `SETEX key ttl value`, `KEYS pattern`, `DEL key...`.
Values are stored serialized (`JSON.stringify`) and parsed on read; the
round trip is the identity, so entries hold the structured value directly.
The only patterns the services use are prefix patterns such as `posts:*`. -/

structure CacheEntry (α : Type) where
  key : String
  ttl : Nat
  val : α
deriving DecidableEq, Repr

abbrev Cache (α : Type) := List (CacheEntry α)

def cacheGet {α : Type} (c : Cache α) (k : String) : Option α :=
  (c.find? (fun e => e.key == k)).map CacheEntry.val

def cacheSetex {α : Type} (c : Cache α) (k : String) (ttl : Nat) (v : α) : Cache α :=
  ⟨k, ttl, v⟩ :: c.filter (fun e => e.key != k)

def cacheDel {α : Type} (c : Cache α) (k : String) : Cache α :=
  c.filter (fun e => e.key != k)

/-- String begins-with test (used for Redis glob patterns `stem*`,
the `^\/v1` path rewrite and the multipart content-type check). -/
def strStartsWith (stem s : String) : Bool :=
  stem.data.isPrefixOf s.data

/-- `KEYS stem*`: all keys that begin with the given pattern stem. -/
def cacheKeys {α : Type} (c : Cache α) (stem : String) : List String :=
  (c.filter (fun e => strStartsWith stem e.key)).map CacheEntry.key

/-- `DEL k1 k2 ...` on a list of keys. -/
def cacheDelMany {α : Type} (c : Cache α) (ks : List String) : Cache α :=
  c.filter (fun e => !(ks.contains e.key))

/-- ioredis coerces a `null`/`undefined` command argument to the empty
string before sending it to Redis. -/
def jsStringArg : Option String → String
  | none => ""
  | some s => s

/-! ### Post service data model -/

structure Post where
  id : String
  user : String
  content : String
  mediaIds : List String
  createdAt : Nat
deriving DecidableEq, Repr

/-- Domain events published on the broker (spec §3). -/
inductive DomainEvent where
  | postCreated (postId userId content : String) (createdAt : Nat)
  | postDeleted (postId userId : String) (mediaIds : List String)
deriving DecidableEq, Repr

/-- What the post service caches: a single post (`post:{id}`) or a
paginated listing (`posts:{page}:{limit}`). -/
structure ListResult where
  posts : List Post
  currentpage : Nat
  totalPages : Nat
  totalPost : Nat
deriving DecidableEq, Repr

inductive PostCacheVal where
  | postVal (p : Post)
  | listVal (r : ListResult)
deriving DecidableEq, Repr

structure PostSvcState where
  store : List Post
  cache : Cache PostCacheVal
  published : List DomainEvent
deriving DecidableEq, Repr

/-- HTTP response of the mutating post controllers:
`{success, message}` with a status code. -/
structure SimpleResp where
  status : Nat
  success : Bool
  message : String
deriving DecidableEq, Repr

/-! ### Post controllers (post-service/src/controllers/post-controller.js) -/

/-- `invalidatePostCache(req, postId)`: delete the single post cache entry
if a post id was provided, then delete every `posts:*` listing key. -/
def invalidatePostCache (c : Cache PostCacheVal) (postId : Option String) : Cache PostCacheVal :=
  let c1 := match postId with
    | some pid => cacheDel c ("post:" ++ pid)
    | none => c
  let keys := cacheKeys c1 "posts:"
  if keys.length ≠ 0 then cacheDelMany c1 keys else c1

/-- Modelled from the spec: `validateCreatePost` lives in post-service
`utils/validation.js`, which is not among the provided sources; the spec
treats field validation as an external collaborator. We model it as
requiring a nonempty `content`, returning the Joi error message if any. -/
def validateCreatePost (content : String) : Option String :=
  if content = "" then some "content is required" else none

/-- `createPost`: validate, save the post, `await publishEvent`, invalidate
the cache, answer 201.  A throw from `publishEvent` lands in the `catch`
block, which answers 500 (`publishOk = false` models that throw; the saved
post is already durable). -/
def createPost (userId content : String) (mediaIds : Option (List String))
    (newId : String) (now : Nat) (publishOk : Bool) (s : PostSvcState) :
    SimpleResp × PostSvcState :=
  match validateCreatePost content with
  | some msg => (⟨400, false, msg⟩, s)
  | none =>
    let p : Post := ⟨newId, userId, content, mediaIds.getD [], now⟩
    let store1 := s.store ++ [p]
    if publishOk then
      let pub1 := s.published ++ [DomainEvent.postCreated newId userId content now]
      let cache1 := invalidatePostCache s.cache (some newId)
      (⟨201, true, "Post created successfully"⟩, ⟨store1, cache1, pub1⟩)
    else
      (⟨500, false, "Error at creating post"⟩, ⟨store1, s.cache, s.published⟩)

/-- Insertion into a list kept sorted by `createdAt` descending
(`.sort({createdAt: -1})`). -/
def insertByCreatedAtDesc (p : Post) : List Post → List Post
  | [] => [p]
  | q :: qs =>
    if q.createdAt ≤ p.createdAt then p :: q :: qs
    else q :: insertByCreatedAtDesc p qs

def sortByCreatedAtDesc (l : List Post) : List Post :=
  l.foldr insertByCreatedAtDesc []

inductive GetAllResp where
  | fromCache (v : PostCacheVal)
  | fresh (r : ListResult)
deriving DecidableEq, Repr

/-- `getAllPosts`: serve `posts:{page}:{limit}` from cache on a hit;
otherwise query MongoDB (sorted by `createdAt` descending, `skip`/`limit`),
cache the result under that key with TTL 300, and return it. -/
def getAllPosts (page limit : Nat) (s : PostSvcState) : GetAllResp × PostSvcState :=
  let cacheKey := "posts:" ++ toString page ++ ":" ++ toString limit
  match cacheGet s.cache cacheKey with
  | some v => (.fromCache v, s)
  | none =>
    let startIndex := (page - 1) * limit
    let posts := ((sortByCreatedAtDesc s.store).drop startIndex).take limit
    let total := s.store.length
    -- Math.ceil(totalNoOfPost / limit)
    let result : ListResult := ⟨posts, page, (total + limit - 1) / limit, total⟩
    let cache1 := cacheSetex s.cache cacheKey 300 (.listVal result)
    (.fresh result, ⟨s.store, cache1, s.published⟩)

inductive GetPostResp where
  | cacheHit (v : PostCacheVal)
  | notFound
  | fetched (p : Post)
deriving DecidableEq, Repr

/-- `getPost`: look up `post:{id}` in the cache; on a hit return the cached
value.  On a miss fetch from MongoDB (404 when absent), then execute
`setex(cachedPost, 3600, JSON.stringify(singlePost))` — the source passes
the cache *lookup result* (which is `null` on this branch, coerced by
ioredis to the empty-string key) where the key belongs, not `cacheKey`. -/
def getPost (postId : String) (s : PostSvcState) : GetPostResp × PostSvcState :=
  let cacheKey := "post:" ++ postId
  let cachedPost := cacheGet s.cache cacheKey
  match cachedPost with
  | some v => (.cacheHit v, s)
  | none =>
    match s.store.find? (fun p => p.id == postId) with
    | none => (.notFound, s)
    | some p =>
      -- on this branch the match above established `cachedPost = null`
      let cache1 := cacheSetex s.cache (jsStringArg none) 3600 (.postVal p)
      (.fetched p, ⟨s.store, cache1, s.published⟩)

/-- `Post.findOneAndDelete(filter)`: atomically find the first matching
document and remove it. -/
def findOneAndDelete (pred : Post → Bool) (l : List Post) : Option Post × List Post :=
  match l.find? pred with
  | none => (none, l)
  | some p => (some p, l.eraseP pred)

/-- `deletePost`: `findOneAndDelete({_id, user})` enforces ownership; 404
when nothing matches, otherwise `await publishEvent('post.deleted', ...)`,
invalidate the cache, answer success.  A throw from `publishEvent` lands in
the `catch` block, which answers 500 (the document is already deleted). -/
def deletePost (reqId reqUserId : String) (publishOk : Bool) (s : PostSvcState) :
    SimpleResp × PostSvcState :=
  match findOneAndDelete (fun p => p.id == reqId && p.user == reqUserId) s.store with
  | (none, _) => (⟨404, false, "Post not found"⟩, s)
  | (some p, store1) =>
    if publishOk then
      let pub1 := s.published ++ [DomainEvent.postDeleted p.id reqUserId p.mediaIds]
      let cache1 := invalidatePostCache s.cache (some reqId)
      (⟨200, true, "Post deleted successfully"⟩, ⟨store1, cache1, pub1⟩)
    else
      (⟨500, false, "Error at Deleting post"⟩, ⟨store1, s.cache, s.published⟩)

/-! ### Media service cleanup worker
(media-service/src/eventHandlers/media-event-handlers.js) -/

structure Media where
  mid : String
  publicId : String
deriving DecidableEq, Repr

/-- Media service state, instrumented with which Cloudinary blob deletions
were attempted and which succeeded. -/
structure MediaSvcState where
  store : List Media
  attemptedBlobs : List String
  deletedBlobs : List String
deriving DecidableEq, Repr

/-- The `for (const media of mediaToDelete)` body:
`deleteMediaFromCloudinary(media.publicId)` then
`Media.findByIdAndDelete(media._id)`.  `blobOk` tells whether the
Cloudinary call succeeds; a throw escapes the loop to the handler-level
`catch`, so the remaining iterations do not run (`false` in the result). -/
def cleanupLoop (blobOk : String → Bool) : List Media → MediaSvcState → MediaSvcState × Bool
  | [], s => (s, true)
  | m :: ms, s =>
    let s1 : MediaSvcState := ⟨s.store, s.attemptedBlobs ++ [m.publicId], s.deletedBlobs⟩
    if blobOk m.publicId then
      let s2 : MediaSvcState :=
        ⟨s1.store.eraseP (fun x => x.mid == m.mid), s1.attemptedBlobs,
          s1.deletedBlobs ++ [m.publicId]⟩
      cleanupLoop blobOk ms s2
    else
      (s1, false)

/-- `handlePostDeleted(event)`: collect the local records whose id is in
`event.mediaIds`, then run the deletion loop inside one `try`; any throw is
caught and logged at handler level (the handler itself returns normally,
with `false` signalling the aborted loop). -/
def handlePostDeleted (blobOk : String → Bool) (mediaIds : List String)
    (s : MediaSvcState) : MediaSvcState × Bool :=
  let mediaToDelete := s.store.filter (fun m => mediaIds.contains m.mid)
  cleanupLoop blobOk mediaToDelete s

/-! ### Identity service
(identity-service controllers and utils/generateToken.js) -/

structure UserAccount where
  uid : String
  username : String
  email : String
deriving DecidableEq, Repr

structure StoredRefreshToken where
  tid : Nat
  token : String
  user : String
  expiresAt : Nat
deriving DecidableEq, Repr

structure IdentityState where
  users : List UserAccount
  refreshTokens : List StoredRefreshToken
deriving DecidableEq, Repr

/-- `jwt.sign({userId, username}, JWT_SECRET_KEY, {expiresIn: "60m"})`:
the access token is determined by its claims. -/
structure AccessToken where
  userId : String
  username : String
deriving DecidableEq, Repr

/-- `generateTokens(user)`: sign an access token, draw a fresh random
refresh token (`crypto.randomBytes(40)`, passed in as `fresh` with its new
Mongo `_id` `freshTid`), store it with a 7-day expiry, return both. -/
def generateTokens (u : UserAccount) (fresh : String) (freshTid : Nat) (now : Nat)
    (s : IdentityState) : (AccessToken × String) × IdentityState :=
  let rt : StoredRefreshToken := ⟨freshTid, fresh, u.uid, now + 7 * 86400000⟩
  ((⟨u.uid, u.username⟩, fresh), ⟨s.users, s.refreshTokens ++ [rt]⟩)

inductive AuthResp where
  | badRequest (message : String)
  | unauthorized (message : String)
  | ok (accessToken : AccessToken) (refreshToken : String) (userId : Option String)
deriving DecidableEq, Repr

/-- Modelled from the spec: `validatelogin` (identity-service
`utils/validation.js`) is not among the provided sources; the spec treats
field validation as an external collaborator.  We model it as requiring a
nonempty email and password, returning the Joi error message if any. -/
def validatelogin (email password : String) : Option String :=
  if email = "" then some "email is required"
  else if password = "" then some "password is required"
  else none

/-- `loginUser`: validate, `User.findOne({email})`, then
`user.comparePassword(password)` (bcrypt, modelled by the `compare`
parameter).  Unknown email and wrong password both answer
400 `"Invalid Credentials"`. -/
def loginUser (compare : UserAccount → String → Bool) (email password : String)
    (fresh : String) (freshTid : Nat) (now : Nat) (s : IdentityState) :
    AuthResp × IdentityState :=
  match validatelogin email password with
  | some msg => (.badRequest msg, s)
  | none =>
    match s.users.find? (fun u => u.email == email) with
    | none => (.badRequest "Invalid Credentials", s)
    | some u =>
      if compare u password then
        let (pair, s1) := generateTokens u fresh freshTid now s
        (.ok pair.1 pair.2 (some u.uid), s1)
      else (.badRequest "Invalid Credentials", s)

/-- `refreshTokenUser`: require the token in the body, look it up
(`RefreshToken.findOne({token})`), reject missing or expired tokens with
401, fetch the user, then rotate: `generateTokens` stores a fresh token and
`RefreshToken.deleteOne({_id: storedToken._id})` removes the presented
one. -/
def refreshTokenUser (body : Option String) (now : Nat) (fresh : String)
    (freshTid : Nat) (s : IdentityState) : AuthResp × IdentityState :=
  match body with
  | none => (.badRequest "Refresh token missing", s)
  | some tok =>
    match s.refreshTokens.find? (fun r => r.token == tok) with
    | none => (.unauthorized "Invalid or expired token", s)
    | some stored =>
      if stored.expiresAt < now then (.unauthorized "Invalid or expired token", s)
      else
        match s.users.find? (fun u => u.uid == stored.user) with
        | none => (.unauthorized "User not found", s)
        | some u =>
          let (pair, s1) := generateTokens u fresh freshTid now s
          let s2 : IdentityState :=
            ⟨s1.users, s1.refreshTokens.eraseP (fun r => r.tid == stored.tid)⟩
          (.ok pair.1 pair.2 none, s2)

/-! ### API gateway (api-gateway/src/server.js and middlewares) -/

structure UserClaims where
  userId : String
  username : String
deriving DecidableEq, Repr

inductive AuthResult where
  | reject (status : Nat) (success : Bool) (message : String)
  | forward (user : UserClaims)
deriving DecidableEq, Repr

/-- JavaScript's `String.prototype.split` on a one-character separator. -/
def splitChar (sep : Char) : List Char → List (List Char)
  | [] => [[]]
  | c :: cs =>
    let r := splitChar sep cs
    if c = sep then [] :: r
    else
      match r with
      | [] => [[c]]
      | w :: ws => (c :: w) :: ws

/-- `authHeader && authHeader.split(" ")[1]`. -/
def extractToken (authHeader : Option String) : Option String :=
  match authHeader with
  | none => none
  | some h => ((splitChar ' ' h.data).map (fun w => String.mk w)).get? 1

/-- `validateToken` middleware: 401 when the bearer token is missing, 401
when `jwt.verify` fails (`verify` models the JWT library under the
gateway's secret), otherwise attach the decoded user and continue. -/
def validateToken (verify : String → Option UserClaims) (authHeader : Option String) :
    AuthResult :=
  match extractToken authHeader with
  | none => .reject 401 false "Authorization required"
  | some tok =>
    match verify tok with
    | none => .reject 401 false "Invalid token"
    | some u => .forward u

/-- `proxyReqPathResolver`: `req.originalUrl.replace(/^\/v1/, "/api")`. -/
def proxyReqPathResolver (url : String) : String :=
  if strStartsWith "/v1" url then "/api" ++ url.drop 3 else url

/-- Headers the post-service proxy decorator sets. -/
def postsProxyHeaders (u : UserClaims) : List (String × String) :=
  [("Content-Type", "application/json"), ("x-user-id", u.userId)]

/-- Headers the media-service proxy decorator sets (content type forced
only for non-multipart bodies). -/
def mediaProxyHeaders (u : UserClaims) (contentType : String) : List (String × String) :=
  if strStartsWith "multipart/form-data" contentType then
    [("x-user-id", u.userId)]
  else
    [("x-user-id", u.userId), ("Content-Type", "application/json")]

/-- Headers the search-service proxy decorator sets. -/
def searchProxyHeaders (u : UserClaims) : List (String × String) :=
  [("Content-Type", "application/json"), ("x-user-id", u.userId)]

inductive GatewayOutcome where
  | response (status : Nat) (success : Bool) (message : String)
  | forwarded (user : UserClaims) (path : String) (headers : List (String × String))
deriving DecidableEq, Repr

/-- A protected gateway prefix (`/v1/posts`, `/v1/media`, `/v1/search`):
`validateToken` runs before the proxy; on success the request is forwarded
to the rewritten path with the decorator's headers. -/
def protectedRoute (verify : String → Option UserClaims) (authHeader : Option String)
    (url : String) (mkHeaders : UserClaims → List (String × String)) : GatewayOutcome :=
  match validateToken verify authHeader with
  | .reject st su msg => .response st su msg
  | .forward u => .forwarded u (proxyReqPathResolver url) (mkHeaders u)

/-! ### Gateway admission (express-rate-limit with RedisStore) -/

def rateLimitWindowMs : Nat := 15 * 60 * 1000

def rateLimitMax : Nat := 100

inductive AdmissionOutcome where
  | rejected (status : Nat) (success : Bool) (message : String)
  | admitted
deriving DecidableEq, Repr

/-- `globalRateLimiter`: the store increments the caller IP's counter for
the current window; when the incremented total exceeds `max`, the custom
handler answers 429 and the request goes no further. -/
def globalRateLimiter (priorHits : Nat) : AdmissionOutcome × Nat :=
  let totalHits := priorHits + 1
  if rateLimitMax < totalHits then
    (.rejected 429 false "Too many requests", totalHits)
  else
    (.admitted, totalHits)

/-! ### Gateway proxy error handling -/

/-- Error body observed by the client: the `success` flag and the upstream
`error` detail are optional because not every handler emits them. -/
structure ErrBody where
  success : Option Bool
  message : String
  error : Option String
deriving DecidableEq, Repr

structure ErrResponse where
  status : Nat
  body : ErrBody
deriving DecidableEq, Repr

/-- `proxyErrorHandler`: on upstream connection failure or timeout, answer
500 with `{message: "Internal server error", error: err.message}` —
unconditionally, in every mode. -/
def proxyErrorHandler (errMessage : String) : ErrResponse :=
  ⟨500, ⟨none, "Internal server error", some errMessage⟩⟩

/-! ### General lemmas about the cache and list operations -/

theorem cacheGet_eq_none_iff {α : Type} (c : Cache α) (k : String) :
    cacheGet c k = none ↔ ∀ e ∈ c, e.key ≠ k := by
  unfold cacheGet
  rw [Option.map_eq_none', List.find?_eq_none]
  simp

theorem strStartsWith_append (s t : String) : strStartsWith s (s ++ t) = true := by
  unfold strStartsWith
  rw [List.isPrefixOf_iff_prefix, String.data_append]
  exact List.prefix_append _ _

theorem invalidate_subset {c : Cache PostCacheVal} {pid : Option String}
    {e : CacheEntry PostCacheVal} (he : e ∈ invalidatePostCache c pid) :
    e ∈ (match pid with | some p => cacheDel c ("post:" ++ p) | none => c) := by
  simp only [invalidatePostCache, cacheDelMany] at he
  split at he
  · exact (List.mem_filter.mp he).1
  · exact he

theorem invalidatePostCache_single_gone (c : Cache PostCacheVal) (pid : String) :
    cacheGet (invalidatePostCache c (some pid)) ("post:" ++ pid) = none := by
  rw [cacheGet_eq_none_iff]
  intro e he
  have h1 := invalidate_subset he
  simp only [cacheDel] at h1
  simpa using (List.mem_filter.mp h1).2

theorem listing_gone_aux (c1 : Cache PostCacheVal) (e : CacheEntry PostCacheVal)
    (he : e ∈ (if (cacheKeys c1 "posts:").length ≠ 0 then
        cacheDelMany c1 (cacheKeys c1 "posts:") else c1)) :
    strStartsWith "posts:" e.key = false := by
  split at he
  case isTrue h =>
    by_contra hcon
    have hpre : strStartsWith "posts:" e.key = true := by
      cases hx : strStartsWith "posts:" e.key
      · exact absurd hx hcon
      · rfl
    simp only [cacheDelMany] at he
    have h1 := List.mem_filter.mp he
    have hkey : e.key ∈ cacheKeys c1 "posts:" := by
      unfold cacheKeys
      exact List.mem_map_of_mem _ (List.mem_filter.mpr ⟨h1.1, hpre⟩)
    have hcontains : (cacheKeys c1 "posts:").contains e.key = true := by
      simpa using hkey
    have h2 := h1.2
    rw [hcontains] at h2
    simp at h2
  case isFalse h =>
    have hnil : cacheKeys c1 "posts:" = [] := List.length_eq_zero.mp (not_ne_iff.mp h)
    simp only [cacheKeys] at hnil
    have hfil := List.map_eq_nil_iff.mp hnil
    have hall := List.filter_eq_nil_iff.mp hfil e he
    cases hx : strStartsWith "posts:" e.key
    · rfl
    · exact absurd hx hall

theorem invalidatePostCache_listing_gone (c : Cache PostCacheVal) (pid : Option String) :
    ∀ e ∈ invalidatePostCache c pid, strStartsWith "posts:" e.key = false := by
  intro e he
  simp only [invalidatePostCache] at he
  exact listing_gone_aux _ e he

theorem cacheGet_posts_key_none {c : Cache PostCacheVal}
    (h : ∀ e ∈ c, strStartsWith "posts:" e.key = false) (t : String) :
    cacheGet c ("posts:" ++ t) = none := by
  rw [cacheGet_eq_none_iff]
  intro e he hk
  have hfalse := h e he
  rw [hk, strStartsWith_append] at hfalse
  cases hfalse

theorem getAllPosts_fresh_of_no_listing {s : PostSvcState}
    (h : ∀ e ∈ s.cache, strStartsWith "posts:" e.key = false) (page limit : Nat) :
    ∃ res, (getAllPosts page limit s).1 = GetAllResp.fresh res := by
  have hget : cacheGet s.cache ("posts:" ++ toString page ++ ":" ++ toString limit) = none := by
    have hx := cacheGet_posts_key_none h (toString page ++ (":" ++ toString limit))
    simpa [String.append_assoc] using hx
  simp only [getAllPosts]
  rw [hget]
  exact ⟨_, rfl⟩

/-! ### Claim theorems -/

/-- Claim C1 (code bug): the claim says a getPost cache miss with the post
present in the store writes the fetched post to the cache under
`post:{id}`, so a repeated getPost can be served from that entry.  The
source instead passes the cache lookup result (`null` on the miss branch)
as the SETEX key, so the entry lands under the ioredis-coerced empty key:
at the failing input (id "1" absent from the cache, present in the store)
the fetch succeeds, the cache gains only an entry with key `""`, `post:1`
is still absent, and a repeated getPost is again a store fetch, not a
cache hit. -/
theorem getPost_cache_write_bug :
    (getPost "1" ⟨[⟨"1", "u1", "hello", [], 0⟩], [], []⟩).1
        = GetPostResp.fetched ⟨"1", "u1", "hello", [], 0⟩
    ∧ (getPost "1" ⟨[⟨"1", "u1", "hello", [], 0⟩], [], []⟩).2.cache
        = [⟨"", 3600, PostCacheVal.postVal ⟨"1", "u1", "hello", [], 0⟩⟩]
    ∧ cacheGet (getPost "1" ⟨[⟨"1", "u1", "hello", [], 0⟩], [], []⟩).2.cache
        ("post:" ++ "1") = none
    ∧ (getPost "1" (getPost "1" ⟨[⟨"1", "u1", "hello", [], 0⟩], [], []⟩).2).1
        = GetPostResp.fetched ⟨"1", "u1", "hello", [], 0⟩ := by
  decide

/-- Claim C3 (counterexample): the claim says a publish failure after a
successful store write is only logged and not surfaced as a failure of the
request.  At this concrete input the store write succeeds (the post is
durably in the store) and the publish throws, yet the controller answers
500 `{success: false}` — the failure is surfaced. -/
theorem publish_failure_surfaced_cex :
    (createPost "u1" "hello" none "p1" 0 false ⟨[], [], []⟩).2.store
        = [⟨"p1", "u1", "hello", [], 0⟩]
    ∧ (createPost "u1" "hello" none "p1" 0 false ⟨[], [], []⟩).1
        = ⟨500, false, "Error at creating post"⟩ := by
  decide

/-- Claim C3 (amended): when the store write succeeds and the subsequent
publish throws, the already-durable write is indeed not rolled back, but
the throw propagates to the controller's catch handler: the request is
answered 500 `{success: false}` (the failure IS surfaced to the caller) and
cache invalidation is skipped. -/
theorem publish_failure_no_rollback_but_500 :
    (∀ (userId content : String) (mediaIds : Option (List String)) (newId : String)
        (now : Nat) (s : PostSvcState) (r : SimpleResp) (s' : PostSvcState),
      validateCreatePost content = none →
      createPost userId content mediaIds newId now false s = (r, s') →
      s'.store = s.store ++ [⟨newId, userId, content, mediaIds.getD [], now⟩]
      ∧ r = ⟨500, false, "Error at creating post"⟩
      ∧ s'.cache = s.cache ∧ s'.published = s.published)
    ∧ (∀ (reqId reqUserId : String) (s : PostSvcState) (p : Post) (store1 : List Post)
        (r : SimpleResp) (s' : PostSvcState),
      findOneAndDelete (fun q => q.id == reqId && q.user == reqUserId) s.store
          = (some p, store1) →
      deletePost reqId reqUserId false s = (r, s') →
      s'.store = store1
      ∧ r = ⟨500, false, "Error at Deleting post"⟩
      ∧ s'.cache = s.cache ∧ s'.published = s.published) := by
  constructor
  · intro userId content mediaIds newId now s r s' hval heq
    simp only [createPost, hval, Bool.false_eq_true, if_false] at heq
    rw [Prod.mk.injEq] at heq
    obtain ⟨rfl, rfl⟩ := heq
    exact ⟨rfl, rfl, rfl, rfl⟩
  · intro reqId reqUserId s p store1 r s' hfd heq
    simp only [deletePost, hfd, Bool.false_eq_true, if_false] at heq
    rw [Prod.mk.injEq] at heq
    obtain ⟨rfl, rfl⟩ := heq
    exact ⟨rfl, rfl, rfl, rfl⟩

/-- Claim C3 witness: the amended statement evaluated at a concrete
request whose publish fails. -/
theorem publish_failure_no_rollback_but_500_witness :
    (createPost "u1" "hello" none "p1" 0 false ⟨[], [], []⟩).2.store
        = ([] : List Post) ++ [⟨"p1", "u1", "hello", [], 0⟩]
    ∧ (createPost "u1" "hello" none "p1" 0 false ⟨[], [], []⟩).1
        = ⟨500, false, "Error at creating post"⟩
    ∧ (createPost "u1" "hello" none "p1" 0 false ⟨[], [], []⟩).2.cache = []
    ∧ (createPost "u1" "hello" none "p1" 0 false ⟨[], [], []⟩).2.published = [] :=
  publish_failure_no_rollback_but_500.1 "u1" "hello" none "p1" 0 ⟨[], [], []⟩ _ _ rfl rfl

/-- Claim C4 (counterexample): the claim says the media cleanup handler
processes each id independently, still attempting every other id when one
fails.  At this input the Cloudinary delete for `pub1` (media `m1`) throws:
the loop aborts into the handler-level catch, `pub2` (media `m2`) is never
attempted, and both metadata records survive. -/
theorem media_cleanup_aborts_cex :
    (handlePostDeleted (fun pid => pid != "pub1") ["m1", "m2"]
        ⟨[⟨"m1", "pub1"⟩, ⟨"m2", "pub2"⟩], [], []⟩).2 = false
    ∧ (handlePostDeleted (fun pid => pid != "pub1") ["m1", "m2"]
        ⟨[⟨"m1", "pub1"⟩, ⟨"m2", "pub2"⟩], [], []⟩).1.attemptedBlobs = ["pub1"]
    ∧ ¬ ("pub2" ∈ (handlePostDeleted (fun pid => pid != "pub1") ["m1", "m2"]
        ⟨[⟨"m1", "pub1"⟩, ⟨"m2", "pub2"⟩], [], []⟩).1.attemptedBlobs)
    ∧ (⟨"m2", "pub2"⟩ : Media) ∈ (handlePostDeleted (fun pid => pid != "pub1") ["m1", "m2"]
        ⟨[⟨"m1", "pub1"⟩, ⟨"m2", "pub2"⟩], [], []⟩).1.store
    ∧ (⟨"m1", "pub1"⟩ : Media) ∈ (handlePostDeleted (fun pid => pid != "pub1") ["m1", "m2"]
        ⟨[⟨"m1", "pub1"⟩, ⟨"m2", "pub2"⟩], [], []⟩).1.store := by
  decide

/-- Claim C6: a request from an IP whose window budget is exhausted
(at least `max = 100` prior hits in the window) is answered 429 with body
`{success: false, message: "Too many requests"}`, is not admitted to the
upstream, and the attempt is counted once — the rejection is the definitive
outcome for that attempt, with no internal retry. -/
theorem rate_limit_rejection (priorHits : Nat) (h : rateLimitMax ≤ priorHits) :
    (globalRateLimiter priorHits).1 = AdmissionOutcome.rejected 429 false "Too many requests"
    ∧ (globalRateLimiter priorHits).1 ≠ AdmissionOutcome.admitted
    ∧ (globalRateLimiter priorHits).2 = priorHits + 1 := by
  have hlt : rateLimitMax < priorHits + 1 := Nat.lt_succ_of_le h
  simp only [globalRateLimiter]
  rw [if_pos hlt]
  exact ⟨rfl, by simp, rfl⟩

/-- Claim C6 witness: the 101st request in a window (100 prior hits) is
rejected. -/
theorem rate_limit_rejection_witness :
    (globalRateLimiter 100).1 = AdmissionOutcome.rejected 429 false "Too many requests"
    ∧ (globalRateLimiter 100).1 ≠ AdmissionOutcome.admitted
    ∧ (globalRateLimiter 100).2 = 101 :=
  rate_limit_rejection 100 (by decide)

/-- Claim C9 (counterexample): the claim says every gateway error body has
shape `{success: false, message}` and never exposes upstream error
internals outside development mode.  The proxy error handler's 500 body
carries no `success` flag and always includes the raw upstream
`err.message`, regardless of mode. -/
theorem proxy_error_leaks_internals_cex :
    ¬ ((proxyErrorHandler "connect ECONNREFUSED 127.0.0.1:3002").body.success = some false
       ∧ (proxyErrorHandler "connect ECONNREFUSED 127.0.0.1:3002").body.error = none) := by
  decide

/-- Claim C9 (amended): on upstream connection failure or timeout the
gateway does answer 500 with the fixed generic message
`"Internal server error"`, but the body lacks the `success: false` flag and
additionally exposes the upstream error internals in an `error` field, in
every mode. -/
theorem proxy_error_body_shape (errMessage : String) :
    (proxyErrorHandler errMessage).status = 500
    ∧ (proxyErrorHandler errMessage).body.message = "Internal server error"
    ∧ (proxyErrorHandler errMessage).body.success = none
    ∧ (proxyErrorHandler errMessage).body.error = some errMessage :=
  ⟨rfl, rfl, rfl, rfl⟩

/-- Claim C10: for well-formed credentials the login failure response is
the same `400 {success: false, message: "Invalid Credentials"}` whether the
email matches no registered user or the email exists and the password
comparison fails, so the endpoint does not reveal whether an email is
registered. -/
theorem login_indistinguishable :
    (∀ (compare : UserAccount → String → Bool) (email password fresh : String)
        (ftid now : Nat) (s : IdentityState),
      validatelogin email password = none →
      s.users.find? (fun u => u.email == email) = none →
      loginUser compare email password fresh ftid now s
          = (AuthResp.badRequest "Invalid Credentials", s))
    ∧ (∀ (compare : UserAccount → String → Bool) (email password fresh : String)
        (ftid now : Nat) (s : IdentityState) (u : UserAccount),
      validatelogin email password = none →
      s.users.find? (fun v => v.email == email) = some u →
      compare u password = false →
      loginUser compare email password fresh ftid now s
          = (AuthResp.badRequest "Invalid Credentials", s)) := by
  constructor
  · intro compare email password fresh ftid now s hval hfind
    simp [loginUser, hval, hfind]
  · intro compare email password fresh ftid now s u hval hfind hcmp
    simp [loginUser, hval, hfind, hcmp]

/-- Claim C10 witness: a concrete store with one registered user; the
unknown-email response and the wrong-password response are the same
concrete value. -/
theorem login_indistinguishable_witness :
    loginUser (fun _ _ => false) "b@x.com" "pw" "f" 1 0 ⟨[⟨"u1", "alice", "a@x.com"⟩], []⟩
        = (AuthResp.badRequest "Invalid Credentials", ⟨[⟨"u1", "alice", "a@x.com"⟩], []⟩)
    ∧ loginUser (fun _ _ => false) "a@x.com" "pw" "f" 1 0 ⟨[⟨"u1", "alice", "a@x.com"⟩], []⟩
        = (AuthResp.badRequest "Invalid Credentials", ⟨[⟨"u1", "alice", "a@x.com"⟩], []⟩) :=
  ⟨login_indistinguishable.1 (fun _ _ => false) "b@x.com" "pw" "f" 1 0 _ (by decide) (by decide),
   login_indistinguishable.2 (fun _ _ => false) "a@x.com" "pw" "f" 1 0 _
     ⟨"u1", "alice", "a@x.com"⟩ (by decide) (by decide) (by decide)⟩

/-- Claim C2: every mutating post write (create or delete) that answers
success has, in the state paired with that success response, no cached
single-resource entry for the mutated id and no cached `posts:*` listing
entry; consequently a listing read issued against that state is computed
fresh from the store, not from the cache. -/
theorem write_invalidates_cache_before_ack :
    (∀ (userId content : String) (mediaIds : Option (List String)) (newId : String)
        (now : Nat) (publishOk : Bool) (s : PostSvcState) (r : SimpleResp) (s' : PostSvcState),
      createPost userId content mediaIds newId now publishOk s = (r, s') →
      r.success = true →
      cacheGet s'.cache ("post:" ++ newId) = none
      ∧ (∀ e ∈ s'.cache, strStartsWith "posts:" e.key = false)
      ∧ (∀ page limit, ∃ res, (getAllPosts page limit s').1 = GetAllResp.fresh res))
    ∧ (∀ (reqId reqUserId : String) (publishOk : Bool) (s : PostSvcState)
        (r : SimpleResp) (s' : PostSvcState),
      deletePost reqId reqUserId publishOk s = (r, s') →
      r.success = true →
      cacheGet s'.cache ("post:" ++ reqId) = none
      ∧ (∀ e ∈ s'.cache, strStartsWith "posts:" e.key = false)
      ∧ (∀ page limit, ∃ res, (getAllPosts page limit s').1 = GetAllResp.fresh res)) := by
  constructor
  · intro userId content mediaIds newId now publishOk s r s' heq hsucc
    simp only [createPost] at heq
    split at heq
    · rw [Prod.mk.injEq] at heq
      obtain ⟨rfl, rfl⟩ := heq
      simp at hsucc
    · split at heq
      · rw [Prod.mk.injEq] at heq
        obtain ⟨rfl, rfl⟩ := heq
        refine ⟨invalidatePostCache_single_gone s.cache newId,
          invalidatePostCache_listing_gone s.cache (some newId), ?_⟩
        intro page limit
        exact getAllPosts_fresh_of_no_listing
          (invalidatePostCache_listing_gone s.cache (some newId)) page limit
      · rw [Prod.mk.injEq] at heq
        obtain ⟨rfl, rfl⟩ := heq
        simp at hsucc
  · intro reqId reqUserId publishOk s r s' heq hsucc
    simp only [deletePost] at heq
    split at heq
    · rw [Prod.mk.injEq] at heq
      obtain ⟨rfl, rfl⟩ := heq
      simp at hsucc
    · split at heq
      · rw [Prod.mk.injEq] at heq
        obtain ⟨rfl, rfl⟩ := heq
        refine ⟨invalidatePostCache_single_gone s.cache reqId,
          invalidatePostCache_listing_gone s.cache (some reqId), ?_⟩
        intro page limit
        exact getAllPosts_fresh_of_no_listing
          (invalidatePostCache_listing_gone s.cache (some reqId)) page limit
      · rw [Prod.mk.injEq] at heq
        obtain ⟨rfl, rfl⟩ := heq
        simp at hsucc

/-- Claim C2 witness: a concrete createPost against a state whose cache
holds both a `post:p9` entry and a `posts:1:10` listing entry; after the
success response the single entry for the new id is gone. -/
theorem write_invalidates_cache_before_ack_witness :
    cacheGet (createPost "u1" "hello" none "p9" 3 true
        ⟨[], [⟨"post:p9", 300, PostCacheVal.postVal ⟨"p9", "u0", "old", [], 0⟩⟩,
              ⟨"posts:1:10", 300, PostCacheVal.listVal ⟨[], 1, 0, 0⟩⟩], []⟩).2.cache
      ("post:" ++ "p9") = none :=
  (write_invalidates_cache_before_ack.1 "u1" "hello" none "p9" 3 true
      ⟨[], [⟨"post:p9", 300, PostCacheVal.postVal ⟨"p9", "u0", "old", [], 0⟩⟩,
            ⟨"posts:1:10", 300, PostCacheVal.listVal ⟨[], 1, 0, 0⟩⟩], []⟩ _ _ rfl rfl).1

/-- Claim C5: on a protected gateway prefix, a missing bearer token or a
token that fails verification yields a 401 response and no forwarding; a
verified token attaches the decoded user and forwards the request to the
rewritten path with the decorator's headers, each of which carries
`x-user-id` equal to the token's userId claim. -/
theorem gateway_auth_and_identity_propagation
    (verify : String → Option UserClaims) (authHeader : Option String) (url : String) :
    (extractToken authHeader = none →
      ∀ mk, protectedRoute verify authHeader url mk
          = GatewayOutcome.response 401 false "Authorization required")
    ∧ (∀ tok, extractToken authHeader = some tok → verify tok = none →
      ∀ mk, protectedRoute verify authHeader url mk
          = GatewayOutcome.response 401 false "Invalid token")
    ∧ (∀ tok u, extractToken authHeader = some tok → verify tok = some u →
      ∀ mk, protectedRoute verify authHeader url mk
          = GatewayOutcome.forwarded u (proxyReqPathResolver url) (mk u))
    ∧ (∀ u : UserClaims, ("x-user-id", u.userId) ∈ postsProxyHeaders u
        ∧ (∀ ct, ("x-user-id", u.userId) ∈ mediaProxyHeaders u ct)
        ∧ ("x-user-id", u.userId) ∈ searchProxyHeaders u) := by
  refine ⟨?_, ?_, ?_, ?_⟩
  · intro h mk
    simp [protectedRoute, validateToken, h]
  · intro tok h hv mk
    simp [protectedRoute, validateToken, h, hv]
  · intro tok u h hv mk
    simp [protectedRoute, validateToken, h, hv]
  · intro u
    refine ⟨by simp [postsProxyHeaders], ?_, by simp [searchProxyHeaders]⟩
    intro ct
    unfold mediaProxyHeaders
    split <;> simp

/-- Claim C5 witness: a concrete verifier and bearer header; the request to
`/v1/posts/abc` is forwarded to `/api/posts/abc` with the `x-user-id`
header set from the verified claims. -/
theorem gateway_auth_and_identity_propagation_witness :
    protectedRoute (fun tok => if tok == "good" then some ⟨"u1", "alice"⟩ else none)
        (some "Bearer good") "/v1/posts/abc" postsProxyHeaders
      = GatewayOutcome.forwarded ⟨"u1", "alice"⟩ "/api/posts/abc"
          [("Content-Type", "application/json"), ("x-user-id", "u1")] :=
  (gateway_auth_and_identity_propagation
      (fun tok => if tok == "good" then some ⟨"u1", "alice"⟩ else none)
      (some "Bearer good") "/v1/posts/abc").2.2.1
    "good" ⟨"u1", "alice"⟩ (by decide) (by decide) postsProxyHeaders

/-- First match of a predicate in a list, when the matching element is
unique. -/
theorem find?_eq_some_of_unique {α : Type} (pred : α → Bool) {l : List α} {a : α}
    (hmem : a ∈ l) (ha : pred a = true) (huniq : ∀ b ∈ l, pred b = true → b = a) :
    l.find? pred = some a := by
  induction l with
  | nil => cases hmem
  | cons x xs ih =>
    by_cases hx : pred x = true
    · rw [List.find?_cons_of_pos _ hx, huniq x (List.mem_cons_self _ _) hx]
    · rw [List.find?_cons_of_neg _ hx]
      rcases List.mem_cons.mp hmem with rfl | h
      · exact absurd ha hx
      · exact ih h (fun b hb => huniq b (List.mem_cons_of_mem _ hb))

/-- Erasing the unique predicate match from a store with pairwise distinct
ids removes that post from the store. -/
theorem not_mem_eraseP_of_unique_id {l : List Post} {p : Post} {pred : Post → Bool}
    (hnd : (l.map Post.id).Nodup) (hp : pred p = true) (hmem : p ∈ l)
    (huniq : ∀ q ∈ l, pred q = true → q = p) :
    p ∉ l.eraseP pred := by
  induction l with
  | nil => cases hmem
  | cons x xs ih =>
    rw [List.map_cons, List.nodup_cons] at hnd
    by_cases hx : pred x = true
    · rw [List.eraseP_cons_of_pos hx]
      have hxp : x = p := huniq x (List.mem_cons_self _ _) hx
      subst hxp
      intro hin
      exact hnd.1 (List.mem_map_of_mem _ hin)
    · rw [List.eraseP_cons_of_neg hx]
      have hpx : p ≠ x := by
        rintro rfl
        exact hx hp
      have hpxs : p ∈ xs := by
        rcases List.mem_cons.mp hmem with rfl | h
        · exact absurd rfl hpx
        · exact h
      intro hin
      rcases List.mem_cons.mp hin with rfl | h
      · exact hpx rfl
      · exact ih hnd.2 hpxs (fun q hq => huniq q (List.mem_cons_of_mem _ hq)) h

/-- Claim C7: with pairwise distinct post ids, a deletePost on post `i`
owned by `U` issued by a different user `V` answers 404 and leaves the
whole state unchanged; issued by `U` it answers success, removes the post
from the store and publishes `post.deleted` carrying the post's id, the
caller's userId and the post's mediaIds. -/
theorem delete_post_ownership
    (s : PostSvcState) (i U V : String) (p : Post)
    (hnd : (s.store.map Post.id).Nodup)
    (hmem : p ∈ s.store) (hid : p.id = i) (howner : p.user = U) (hVU : V ≠ U) :
    deletePost i V true s = (⟨404, false, "Post not found"⟩, s)
    ∧ ∃ s', deletePost i U true s = (⟨200, true, "Post deleted successfully"⟩, s')
        ∧ p ∉ s'.store
        ∧ s'.published = s.published ++ [DomainEvent.postDeleted p.id U p.mediaIds] := by
  have hinj := List.inj_on_of_nodup_map hnd
  have huniq : ∀ q ∈ s.store, (q.id == i && q.user == U) = true → q = p := by
    intro q hq hmatch
    rw [Bool.and_eq_true, beq_iff_eq, beq_iff_eq] at hmatch
    exact hinj hq hmem (by rw [hmatch.1, hid])
  constructor
  · have hnone : s.store.find? (fun q => q.id == i && q.user == V) = none := by
      rw [List.find?_eq_none]
      intro q hq hmatch
      rw [Bool.and_eq_true, beq_iff_eq, beq_iff_eq] at hmatch
      have hqp : q = p := hinj hq hmem (by rw [hmatch.1, hid])
      rw [hqp, howner] at hmatch
      exact hVU hmatch.2.symm
    simp [deletePost, findOneAndDelete, hnone]
  · have hpred : ((fun q : Post => q.id == i && q.user == U) p) = true := by
      simp [hid, howner]
    have hfind : s.store.find? (fun q => q.id == i && q.user == U) = some p :=
      find?_eq_some_of_unique _ hmem hpred huniq
    refine ⟨⟨s.store.eraseP (fun q => q.id == i && q.user == U),
        invalidatePostCache s.cache (some i),
        s.published ++ [DomainEvent.postDeleted p.id U p.mediaIds]⟩, ?_, ?_, rfl⟩
    · simp [deletePost, findOneAndDelete, hfind]
    · exact not_mem_eraseP_of_unique_id hnd hpred hmem huniq

/-- Claim C7 witness: one stored post owned by `U`; a delete by `V` is a
404 no-op and a delete by `U` succeeds, removes it and publishes the
`post.deleted` event. -/
theorem delete_post_ownership_witness :
    deletePost "p1" "V" true ⟨[⟨"p1", "U", "hi", ["m1"], 0⟩], [], []⟩
        = (⟨404, false, "Post not found"⟩, ⟨[⟨"p1", "U", "hi", ["m1"], 0⟩], [], []⟩)
    ∧ ∃ s', deletePost "p1" "U" true ⟨[⟨"p1", "U", "hi", ["m1"], 0⟩], [], []⟩
          = (⟨200, true, "Post deleted successfully"⟩, s')
        ∧ (⟨"p1", "U", "hi", ["m1"], 0⟩ : Post) ∉ s'.store
        ∧ s'.published = [] ++ [DomainEvent.postDeleted "p1" "U" ["m1"]] :=
  delete_post_ownership ⟨[⟨"p1", "U", "hi", ["m1"], 0⟩], [], []⟩ "p1" "U" "V"
    ⟨"p1", "U", "hi", ["m1"], 0⟩ (by decide) (by decide) rfl rfl (by decide)

/-- An element not matched by the predicate survives `eraseP`. -/
theorem mem_eraseP_of_not_matched {α : Type} {p : α → Bool} {l : List α} {a : α}
    (ha : a ∈ l) (hp : p a = false) : a ∈ l.eraseP p := by
  induction l with
  | nil => cases ha
  | cons x xs ih =>
    by_cases hx : p x = true
    · rw [List.eraseP_cons_of_pos hx]
      rcases List.mem_cons.mp ha with rfl | h
      · rw [hp] at hx
        cases hx
      · exact h
    · rw [List.eraseP_cons_of_neg hx]
      rcases List.mem_cons.mp ha with rfl | h
      · exact List.mem_cons_self _ _
      · exact List.mem_cons_of_mem _ (ih h)

/-- Behaviour of the cleanup loop on a run whose first Cloudinary failure
occurs right after a successful span `done`. -/
theorem cleanupLoop_stops (blobOk : String → Bool) (m : Media) (rest : List Media)
    (hm : blobOk m.publicId = false) :
    ∀ (done : List Media), (∀ x ∈ done, blobOk x.publicId = true) →
    ∀ (s : MediaSvcState),
      (cleanupLoop blobOk (done ++ m :: rest) s).2 = false
      ∧ (cleanupLoop blobOk (done ++ m :: rest) s).1.attemptedBlobs
          = s.attemptedBlobs ++ done.map Media.publicId ++ [m.publicId]
      ∧ (cleanupLoop blobOk (done ++ m :: rest) s).1.deletedBlobs
          = s.deletedBlobs ++ done.map Media.publicId
      ∧ ∀ x ∈ s.store, (∀ d ∈ done, (x.mid == d.mid) = false) →
          x ∈ (cleanupLoop blobOk (done ++ m :: rest) s).1.store := by
  intro done
  induction done with
  | nil =>
    intro _ s
    refine ⟨by simp [cleanupLoop, hm], by simp [cleanupLoop, hm],
      by simp [cleanupLoop, hm], ?_⟩
    intro x hx _
    simpa [cleanupLoop, hm] using hx
  | cons d ds ih =>
    intro hdone s
    have hd : blobOk d.publicId = true := hdone d (List.mem_cons_self _ _)
    have hstep : cleanupLoop blobOk ((d :: ds) ++ m :: rest) s
        = cleanupLoop blobOk (ds ++ m :: rest)
            ⟨s.store.eraseP (fun x => x.mid == d.mid),
              s.attemptedBlobs ++ [d.publicId], s.deletedBlobs ++ [d.publicId]⟩ := by
      simp [cleanupLoop, hd]
    rw [hstep]
    obtain ⟨h1, h2, h3, h4⟩ :=
      ih (fun x hx => hdone x (List.mem_cons_of_mem _ hx))
        ⟨s.store.eraseP (fun x => x.mid == d.mid),
          s.attemptedBlobs ++ [d.publicId], s.deletedBlobs ++ [d.publicId]⟩
    refine ⟨h1, ?_, ?_, ?_⟩
    · rw [h2]
      simp
    · rw [h3]
      simp
    · intro x hx hne
      exact h4 x
        (mem_eraseP_of_not_matched hx (hne d (List.mem_cons_self _ _)))
        (fun q hq => hne q (List.mem_cons_of_mem _ hq))

/-- Claim C4 (amended): when the Cloudinary delete throws for some media in
the PostDeleted cleanup, the throw is caught and logged at handler level
(the handler returns instead of propagating), the medias before the failing
one are fully processed (blob deleted and record removed), the failing
media's blob delete is the last attempted call, and no later media is
attempted — its blob is not deleted and its metadata record survives. -/
theorem media_cleanup_stops_at_first_failure
    (blobOk : String → Bool) (mediaIds : List String) (s : MediaSvcState)
    (done : List Media) (m : Media) (rest : List Media)
    (hsplit : s.store.filter (fun x => mediaIds.contains x.mid) = done ++ m :: rest)
    (hdone : ∀ x ∈ done, blobOk x.publicId = true)
    (hm : blobOk m.publicId = false) :
    (handlePostDeleted blobOk mediaIds s).2 = false
    ∧ (handlePostDeleted blobOk mediaIds s).1.attemptedBlobs
        = s.attemptedBlobs ++ done.map Media.publicId ++ [m.publicId]
    ∧ (handlePostDeleted blobOk mediaIds s).1.deletedBlobs
        = s.deletedBlobs ++ done.map Media.publicId
    ∧ ∀ x ∈ s.store, (∀ d ∈ done, (x.mid == d.mid) = false) →
        x ∈ (handlePostDeleted blobOk mediaIds s).1.store := by
  have h := cleanupLoop_stops blobOk m rest hm done hdone s
  simp only [handlePostDeleted, hsplit]
  exact h

/-- Claim C4 witness: two medias, the first blob delete fails; the handler
returns with the loop aborted, only `pub1` attempted, nothing deleted, and
the second media's record still present. -/
theorem media_cleanup_stops_at_first_failure_witness :
    (handlePostDeleted (fun pid => pid != "pub1") ["m1", "m2"]
        ⟨[⟨"m1", "pub1"⟩, ⟨"m2", "pub2"⟩], [], []⟩).2 = false
    ∧ (handlePostDeleted (fun pid => pid != "pub1") ["m1", "m2"]
        ⟨[⟨"m1", "pub1"⟩, ⟨"m2", "pub2"⟩], [], []⟩).1.attemptedBlobs = ["pub1"]
    ∧ (⟨"m2", "pub2"⟩ : Media) ∈ (handlePostDeleted (fun pid => pid != "pub1") ["m1", "m2"]
        ⟨[⟨"m1", "pub1"⟩, ⟨"m2", "pub2"⟩], [], []⟩).1.store := by
  have h := media_cleanup_stops_at_first_failure (fun pid => pid != "pub1") ["m1", "m2"]
    ⟨[⟨"m1", "pub1"⟩, ⟨"m2", "pub2"⟩], [], []⟩ [] ⟨"m1", "pub1"⟩ [⟨"m2", "pub2"⟩]
    (by decide) (by simp) (by decide)
  exact ⟨h.1, h.2.1, h.2.2.2 ⟨"m2", "pub2"⟩ (by simp) (by simp)⟩

/-- First match of a predicate whose filter is a singleton. -/
theorem find?_of_filter_singleton {α : Type} (p : α → Bool) {l : List α} {a : α}
    (h : l.filter p = [a]) : l.find? p = some a := by
  induction l with
  | nil => simp at h
  | cons x xs ih =>
    by_cases hx : p x = true
    · rw [List.filter_cons_of_pos hx] at h
      rw [List.cons.injEq] at h
      rw [List.find?_cons_of_pos _ hx, h.1]
    · rw [List.filter_cons_of_neg hx] at h
      rw [List.find?_cons_of_neg _ hx]
      exact ih h

/-- Membership and predicate truth of the element of a singleton filter. -/
theorem of_filter_singleton {α : Type} (p : α → Bool) {l : List α} {a : α}
    (h : l.filter p = [a]) : a ∈ l ∧ p a = true := by
  have hmem : a ∈ l.filter p := by
    rw [h]
    exact List.mem_singleton_self a
  exact ⟨(List.mem_filter.mp hmem).1, (List.mem_filter.mp hmem).2⟩

/-- Erasing the unique `q`-match from a list whose unique `p`-match is the
same element leaves no `p`-match. -/
theorem filter_eraseP_nil {α : Type} (p q : α → Bool) (a : α)
    (hpa : p a = true) (hqa : q a = true) :
    ∀ (l : List α), l.filter p = [a] → l.filter q = [a] →
      (l.eraseP q).filter p = [] := by
  intro l
  induction l with
  | nil =>
    intro h1 _
    simp at h1
  | cons x xs ih =>
    intro h1 h2
    by_cases hqx : q x = true
    · rw [List.eraseP_cons_of_pos hqx]
      rw [List.filter_cons_of_pos hqx, List.cons.injEq] at h2
      by_cases hpx : p x = true
      · rw [List.filter_cons_of_pos hpx, List.cons.injEq] at h1
        exact h1.2
      · rw [h2.1] at hpx
        exact absurd hpa hpx
    · rw [List.eraseP_cons_of_neg hqx]
      rw [List.filter_cons_of_neg hqx] at h2
      by_cases hpx : p x = true
      · rw [List.filter_cons_of_pos hpx, List.cons.injEq] at h1
        rw [← h1.1] at hqa
        exact absurd hqa hqx
      · rw [List.filter_cons_of_neg hpx] at h1
        rw [List.filter_cons_of_neg hpx]
        exact ih h1 h2

/-- Claim C8: refresh tokens are single-use.  If the store holds exactly
one record bearing token `t` (and Mongo `_id`s are unique), and a refresh
presenting `t` succeeds — returning a new access token and a freshly drawn
refresh token different from `t` — then in the resulting store no record
bears `t`, and a second refresh presenting the same `t` is answered 401
`"Invalid or expired token"` with the store unchanged. -/
theorem refresh_token_single_use
    (s : IdentityState) (t fresh : String) (ftid now : Nat)
    (stored : StoredRefreshToken)
    (h1 : s.refreshTokens.filter (fun r => r.token == t) = [stored])
    (h2 : s.refreshTokens.filter (fun r => r.tid == stored.tid) = [stored])
    (hfresh : fresh ≠ t)
    (a : AccessToken) (newT : String) (s' : IdentityState)
    (hsucc : refreshTokenUser (some t) now fresh ftid s = (AuthResp.ok a newT none, s'))
    (now2 : Nat) (fresh2 : String) (ftid2 : Nat) :
    s'.refreshTokens.find? (fun r => r.token == t) = none
    ∧ refreshTokenUser (some t) now2 fresh2 ftid2 s'
        = (AuthResp.unauthorized "Invalid or expired token", s') := by
  have hfind : s.refreshTokens.find? (fun r => r.token == t) = some stored :=
    find?_of_filter_singleton _ h1
  have hptok : ((fun r : StoredRefreshToken => r.token == t) stored) = true :=
    (of_filter_singleton _ h1).2
  have hmem : stored ∈ s.refreshTokens := (of_filter_singleton _ h1).1
  simp only [refreshTokenUser, hfind] at hsucc
  by_cases hexp : stored.expiresAt < now
  · rw [if_pos hexp] at hsucc
    simp at hsucc
  · rw [if_neg hexp] at hsucc
    cases hu : s.users.find? (fun u => u.uid == stored.user) with
    | none =>
      rw [hu] at hsucc
      simp at hsucc
    | some u =>
      rw [hu] at hsucc
      simp only [generateTokens, Prod.mk.injEq] at hsucc
      obtain ⟨-, rfl⟩ := hsucc
      have herase : (s.refreshTokens
            ++ [(⟨ftid, fresh, u.uid, now + 7 * 86400000⟩ : StoredRefreshToken)]).eraseP
              (fun r => r.tid == stored.tid)
          = s.refreshTokens.eraseP (fun r => r.tid == stored.tid)
            ++ [⟨ftid, fresh, u.uid, now + 7 * 86400000⟩] :=
        List.eraseP_append_left (by simp) _ hmem
      have hfe : (s.refreshTokens.eraseP (fun r => r.tid == stored.tid)).filter
          (fun r => r.token == t) = [] :=
        filter_eraseP_nil (fun r => r.token == t) (fun r => r.tid == stored.tid)
          stored hptok (by simp) s.refreshTokens h1 h2
      have hnone : ((s.refreshTokens
            ++ [(⟨ftid, fresh, u.uid, now + 7 * 86400000⟩ : StoredRefreshToken)]).eraseP
              (fun r => r.tid == stored.tid)).find? (fun r => r.token == t) = none := by
        rw [herase, List.find?_eq_none]
        intro x hx
        rcases List.mem_append.mp hx with hx1 | hx2
        · exact List.filter_eq_nil_iff.mp hfe x hx1
        · rw [List.mem_singleton] at hx2
          subst hx2
          simp [hfresh]
      constructor
      · exact hnone
      · simp only [refreshTokenUser]
        rw [hnone]

/-- Claim C8 witness: one user with one stored refresh token `tok1`; the
first refresh succeeds and rotates it to `tok2`, and a second refresh
presenting `tok1` is answered 401. -/
theorem refresh_token_single_use_witness :
    ((refreshTokenUser (some "tok1") 5 "tok2" 2
        ⟨[⟨"u1", "alice", "a@x.com"⟩], [⟨1, "tok1", "u1", 100⟩]⟩).2).refreshTokens.find?
      (fun r => r.token == "tok1") = none
    ∧ refreshTokenUser (some "tok1") 6 "x" 3
        (refreshTokenUser (some "tok1") 5 "tok2" 2
          ⟨[⟨"u1", "alice", "a@x.com"⟩], [⟨1, "tok1", "u1", 100⟩]⟩).2
      = (AuthResp.unauthorized "Invalid or expired token",
        (refreshTokenUser (some "tok1") 5 "tok2" 2
          ⟨[⟨"u1", "alice", "a@x.com"⟩], [⟨1, "tok1", "u1", 100⟩]⟩).2) :=
  refresh_token_single_use ⟨[⟨"u1", "alice", "a@x.com"⟩], [⟨1, "tok1", "u1", 100⟩]⟩
    "tok1" "tok2" 2 5 ⟨1, "tok1", "u1", 100⟩ (by decide) (by decide) (by decide)
    ⟨"u1", "alice"⟩ "tok2" _ (by decide) 6 "x" 3

end SocialMedia
